import Mathlib

/-!
Verification development for the reader-side input-mapping subsystem and the
CpuConsumer locked-buffer pool of this repository.

Sources embedded here:
* `src/libs/gui/CpuConsumer.cpp` — the locked-buffer pool (`lockNextBuffer`,
  `unlockBuffer`, `findAcquiredBufferLocked`) is translated directly; the
  graphics side (EGL readback, colorspace conversion) is treated as an
  external oracle whose outcome is an explicit input.
* `src/services/inputflinger/reader/mapper/CursorInputMapper.h` — only the
  header is in the sources; the member-function bodies are modelled from the
  specification (each such definition carries a `Modelled from the spec:`
  doc comment).
-/

namespace Spec2Proof

/-! ## CpuConsumer locked-buffer pool (src/libs/gui/CpuConsumer.cpp) -/

/-- `status_t` values that appear in `lockNextBuffer` / `unlockBuffer`.
`err n` stands for any other error code forwarded from a callee. -/
inductive Status where
  | ok
  | badValue
  | notEnoughData
  | noBufferAvailable
  | err (code : Int)
deriving DecidableEq

/-- `AcquiredBuffer::kUnusedId`: the sentinel id of an unused slot
(the null data pointer, declared in the CpuConsumer header). -/
def kUnusedId : Nat := 0

/-- The state guarded by `mMutex`: the fixed-size slot table
`mAcquiredBuffers` (represented by each slot's `mLockedBufferId`; an unused
slot holds `kUnusedId`, see `AcquiredBuffer::reset`), the pool size
`mMaxLockedBuffers` fixed at construction, and `mCurrentLockedBuffers`. -/
structure CpuConsumerState where
  mMaxLockedBuffers : Nat
  mCurrentLockedBuffers : Nat
  mAcquiredBuffers : List Nat
deriving DecidableEq

/-- `CpuConsumer::findAcquiredBufferLocked`: linear scan of the slot table for
the first slot whose `mLockedBufferId` equals `id`; returns
`mMaxLockedBuffers` (= the table length, an invalid index) when absent.
`List.findIdx` returns the list length on failure, mirroring the loop. -/
def findAcquiredBufferLocked (s : CpuConsumerState) (id : Nat) : Nat :=
  s.mAcquiredBuffers.findIdx (fun x => x == id)

/-- Outcome of the externally-failable part of `lockNextBuffer`:
`acquireBufferLocked` (line 465) may fail, `lockBufferItem` (line 479) may
fail, or both succeed yielding a locked buffer whose identity is its data
pointer (`getLockedBufferId`). -/
inductive LockOutcome where
  | acquireFail (e : Status)
  | lockItemFail (e : Status)
  | lockOk (id : Nat)
deriving DecidableEq

/-- `CpuConsumer::lockNextBuffer` (lines 451-496): refuse with
`NOT_ENOUGH_DATA` when the pool is full; map an acquire failure of
`NO_BUFFER_AVAILABLE` to `BAD_VALUE` and forward other failures; on success
store the new id in the first unused slot and increment the count. -/
def lockNextBuffer (s : CpuConsumerState) (o : LockOutcome) : Status × CpuConsumerState :=
  if s.mCurrentLockedBuffers = s.mMaxLockedBuffers then
    (Status.notEnoughData, s)
  else
    match o with
    | LockOutcome.acquireFail e =>
        (if e = Status.noBufferAvailable then Status.badValue else e, s)
    | LockOutcome.lockItemFail e => (e, s)
    | LockOutcome.lockOk id =>
        let lockedIdx := findAcquiredBufferLocked s kUnusedId
        (Status.ok,
         { s with
            mAcquiredBuffers := s.mAcquiredBuffers.set lockedIdx id,
            mCurrentLockedBuffers := s.mCurrentLockedBuffers + 1 })

/-- `CpuConsumer::unlockBuffer` (lines 498-535): compute the slot index only
for a non-sentinel id (line 503); return `BAD_VALUE` when no slot matches;
otherwise `unlockAsync` runs (its outcome is the oracle `ue`) and on its
failure the function returns early without resetting the slot or
decrementing the count; on success the slot is reset to `kUnusedId`
(`ab.reset()`) and the count decremented. -/
def unlockBuffer (s : CpuConsumerState) (id : Nat) (ue : Option Status) :
    Status × CpuConsumerState :=
  let lockedIdx :=
    if id ≠ kUnusedId then findAcquiredBufferLocked s id else s.mMaxLockedBuffers
  if lockedIdx = s.mMaxLockedBuffers then
    (Status.badValue, s)
  else
    match ue with
    | some e => (e, s)
    | none =>
        (Status.ok,
         { s with
            mAcquiredBuffers := s.mAcquiredBuffers.set lockedIdx kUnusedId,
            mCurrentLockedBuffers := s.mCurrentLockedBuffers - 1 })

/-- One mutex-serialized pool mutation: a `lockNextBuffer` call with its
external outcome, or an `unlockBuffer` call with the supplied buffer id and
the `unlockAsync` outcome. -/
inductive PoolOp where
  | lock (o : LockOutcome)
  | unlock (id : Nat) (ue : Option Status)
deriving DecidableEq

def poolStep (s : CpuConsumerState) (op : PoolOp) : CpuConsumerState :=
  match op with
  | PoolOp.lock o => (lockNextBuffer s o).2
  | PoolOp.unlock id ue => (unlockBuffer s id ue).2

def runPool (s : CpuConsumerState) (ops : List PoolOp) : CpuConsumerState :=
  ops.foldl poolStep s

/-- The constructor state (lines 87-98): `mCurrentLockedBuffers = 0` and
`mAcquiredBuffers` holding `maxLockedBuffers` unused tracking entries. -/
def initPool (n : Nat) : CpuConsumerState :=
  ⟨n, 0, List.replicate n kUnusedId⟩

/-- Number of slots currently holding a real (non-sentinel) buffer id. -/
def countUsedSlots (l : List Nat) : Nat :=
  l.countP (fun x => if x = kUnusedId then false else true)

/-- Conclusion of a successful lock on a non-full, consistent pool: the
result is `OK`, and exactly the first unused slot (previously holding
`kUnusedId`) now holds the new id, with the count incremented. -/
def LockOccupiesFreshSlot (s : CpuConsumerState) (id : Nat) : Prop :=
  ∃ i, i < s.mMaxLockedBuffers ∧
    s.mAcquiredBuffers.get? i = some kUnusedId ∧
    lockNextBuffer s (LockOutcome.lockOk id) =
      (Status.ok,
       { s with
          mAcquiredBuffers := s.mAcquiredBuffers.set i id,
          mCurrentLockedBuffers := s.mCurrentLockedBuffers + 1 })

lemma lockNextBuffer_max (s : CpuConsumerState) (o : LockOutcome) :
    (lockNextBuffer s o).2.mMaxLockedBuffers = s.mMaxLockedBuffers := by
  simp only [lockNextBuffer]
  split
  · rfl
  · cases o <;> rfl

lemma unlockBuffer_max (s : CpuConsumerState) (id : Nat) (ue : Option Status) :
    (unlockBuffer s id ue).2.mMaxLockedBuffers = s.mMaxLockedBuffers := by
  simp only [unlockBuffer]
  split <;> split <;> first | rfl | (cases ue <;> rfl)

lemma lockNextBuffer_current_le (s : CpuConsumerState) (o : LockOutcome)
    (h : s.mCurrentLockedBuffers ≤ s.mMaxLockedBuffers) :
    (lockNextBuffer s o).2.mCurrentLockedBuffers ≤ s.mMaxLockedBuffers := by
  simp only [lockNextBuffer]
  split
  · exact h
  · next hne =>
      cases o with
      | acquireFail e => exact h
      | lockItemFail e => exact h
      | lockOk id =>
          show s.mCurrentLockedBuffers + 1 ≤ s.mMaxLockedBuffers
          omega

lemma unlockBuffer_current_le (s : CpuConsumerState) (id : Nat) (ue : Option Status)
    (h : s.mCurrentLockedBuffers ≤ s.mMaxLockedBuffers) :
    (unlockBuffer s id ue).2.mCurrentLockedBuffers ≤ s.mMaxLockedBuffers := by
  simp only [unlockBuffer]
  split <;> split <;>
    first
      | exact h
      | (cases ue with
          | some e => exact h
          | none =>
              show s.mCurrentLockedBuffers - 1 ≤ s.mMaxLockedBuffers
              omega)

lemma poolStep_max (s : CpuConsumerState) (op : PoolOp) :
    (poolStep s op).mMaxLockedBuffers = s.mMaxLockedBuffers := by
  cases op with
  | lock o => exact lockNextBuffer_max s o
  | unlock id ue => exact unlockBuffer_max s id ue

lemma poolStep_current_le (s : CpuConsumerState) (op : PoolOp)
    (h : s.mCurrentLockedBuffers ≤ s.mMaxLockedBuffers) :
    (poolStep s op).mCurrentLockedBuffers ≤ (poolStep s op).mMaxLockedBuffers := by
  rw [poolStep_max]
  cases op with
  | lock o => exact lockNextBuffer_current_le s o h
  | unlock id ue => exact unlockBuffer_current_le s id ue h

lemma runPool_current_le (ops : List PoolOp) (s : CpuConsumerState)
    (h : s.mCurrentLockedBuffers ≤ s.mMaxLockedBuffers) :
    (runPool s ops).mCurrentLockedBuffers ≤ (runPool s ops).mMaxLockedBuffers := by
  induction ops generalizing s with
  | nil => exact h
  | cons op ops ih =>
      exact ih (poolStep s op) (poolStep_current_le s op h)

lemma runPool_max (ops : List PoolOp) (s : CpuConsumerState) :
    (runPool s ops).mMaxLockedBuffers = s.mMaxLockedBuffers := by
  induction ops generalizing s with
  | nil => rfl
  | cons op ops ih =>
      simpa [runPool, poolStep_max] using (ih (poolStep s op)).trans (poolStep_max s op)

lemma countP_lt_length_exists (p : Nat → Bool) (l : List Nat)
    (h : l.countP p < l.length) : ∃ x ∈ l, p x = false := by
  induction l with
  | nil => simp at h
  | cons a l ih =>
      by_cases hpa : p a = true
      · rw [List.countP_cons, hpa] at h
        simp only [if_true, List.length_cons] at h
        obtain ⟨x, hx, hpx⟩ := ih (by omega)
        exact ⟨x, List.mem_cons_of_mem a hx, hpx⟩
      · exact ⟨a, List.mem_cons_self a l, by simpa using hpa⟩

lemma findIdx_lt_of_mem (l : List Nat) (v : Nat) (h : v ∈ l) :
    l.findIdx (fun x => x == v) < l.length := by
  induction l with
  | nil => simp at h
  | cons a l ih =>
      rw [List.findIdx_cons]
      by_cases hav : (a == v) = true
      · simp [hav]
      · simp only [hav, cond_false, List.length_cons]
        have hv : v ∈ l := by
          rcases List.mem_cons.mp h with h1 | h1
          · exact absurd (by simp [h1] : (a == v) = true) hav
          · exact h1
        have := ih hv
        omega

lemma get_findIdx_of_mem (l : List Nat) (v : Nat) (h : v ∈ l) :
    l.get? (l.findIdx (fun x => x == v)) = some v := by
  induction l with
  | nil => simp at h
  | cons a l ih =>
      rw [List.findIdx_cons]
      by_cases hav : (a == v) = true
      · simp only [hav, cond_true]
        have hEq : a = v := by simpa using hav
        simp [hEq]
      · simp only [hav, cond_false]
        have hv : v ∈ l := by
          rcases List.mem_cons.mp h with h1 | h1
          · exact absurd (by simp [h1] : (a == v) = true) hav
          · exact h1
        simpa using ih hv

lemma findIdx_eq_length_of_not_mem (l : List Nat) (v : Nat) (h : v ∉ l) :
    l.findIdx (fun x => x == v) = l.length := by
  induction l with
  | nil => rfl
  | cons a l ih =>
      rw [List.findIdx_cons]
      have hav : (a == v) = false := by
        simp only [beq_eq_false_iff_ne, ne_eq]
        intro hEq
        exact h (hEq ▸ List.mem_cons_self a l)
      simp only [hav, cond_false, List.length_cons]
      have hv : v ∉ l := fun hm => h (List.mem_cons_of_mem a hm)
      rw [ih hv]

/-- C6: the CpuConsumer locked-buffer pool is bounded. For every sequence of
`lockNextBuffer`/`unlockBuffer` calls from the constructor state,
`mCurrentLockedBuffers` never exceeds `mMaxLockedBuffers`; when the pool is
full, `lockNextBuffer` returns `NOT_ENOUGH_DATA` leaving the state untouched;
and a successful lock on a consistent non-full pool fills exactly one
previously unused slot and increments the count. -/
theorem cpuConsumer_locked_pool_bounded :
    (∀ (n : Nat) (ops : List PoolOp),
        (runPool (initPool n) ops).mCurrentLockedBuffers ≤ n)
    ∧ (∀ (s : CpuConsumerState) (o : LockOutcome),
        s.mCurrentLockedBuffers = s.mMaxLockedBuffers →
          lockNextBuffer s o = (Status.notEnoughData, s))
    ∧ (∀ (s : CpuConsumerState) (id : Nat),
        s.mAcquiredBuffers.length = s.mMaxLockedBuffers →
        countUsedSlots s.mAcquiredBuffers = s.mCurrentLockedBuffers →
        s.mCurrentLockedBuffers < s.mMaxLockedBuffers →
        id ≠ kUnusedId →
        LockOccupiesFreshSlot s id) := by
  refine ⟨?_, ?_, ?_⟩
  · intro n ops
    have h := runPool_current_le ops (initPool n) (by simp [initPool])
    rw [runPool_max] at h
    exact h
  · intro s o h
    simp [lockNextBuffer, h]
  · intro s id hlen hcount hlt hid
    have hlt2 : s.mAcquiredBuffers.countP (fun x => if x = kUnusedId then false else true)
        < s.mAcquiredBuffers.length := by
      have hc : countUsedSlots s.mAcquiredBuffers < s.mMaxLockedBuffers := by omega
      simpa [countUsedSlots, hlen] using hc
    obtain ⟨x, hxmem, hpx⟩ := countP_lt_length_exists _ _ hlt2
    have hx0 : x = kUnusedId := by
      by_contra hne
      simp [hne] at hpx
    have hmem : kUnusedId ∈ s.mAcquiredBuffers := hx0 ▸ hxmem
    refine ⟨findAcquiredBufferLocked s kUnusedId, ?_, ?_, ?_⟩
    · have hidx := findIdx_lt_of_mem _ _ hmem
      unfold findAcquiredBufferLocked
      omega
    · exact get_findIdx_of_mem _ _ hmem
    · simp only [lockNextBuffer]
      rw [if_neg (by omega)]

/-- Witness for C6: a concrete pool of size 2 with one used slot accepts a
lock of the fresh id 7 into its unused slot. -/
theorem cpuConsumer_locked_pool_bounded_witness :
    (countUsedSlots [5, 0] = 1 ∧ (1 : Nat) < 2 ∧ (7 : Nat) ≠ kUnusedId)
    ∧ LockOccupiesFreshSlot ⟨2, 1, [5, 0]⟩ 7 :=
  ⟨⟨by decide, by decide, by decide⟩,
   cpuConsumer_locked_pool_bounded.2.2 ⟨2, 1, [5, 0]⟩ 7
     (by decide) (by decide) (by decide) (by decide)⟩

/-- C10: `unlockBuffer` is atomic on error. If the supplied buffer identity
is the unused-id sentinel, or matches no tracked acquired buffer, the call
returns `BAD_VALUE` and the whole state — slot table and locked count — is
unchanged. -/
theorem cpuConsumer_unlockBuffer_error_atomic :
    ∀ (s : CpuConsumerState) (id : Nat) (ue : Option Status),
      s.mAcquiredBuffers.length = s.mMaxLockedBuffers →
      (id = kUnusedId ∨ id ∉ s.mAcquiredBuffers) →
      unlockBuffer s id ue = (Status.badValue, s) := by
  intro s id ue hlen hcase
  by_cases h0 : id = kUnusedId
  · simp [unlockBuffer, h0]
  · have hnm : id ∉ s.mAcquiredBuffers := by
      rcases hcase with h | h
      · exact absurd h h0
      · exact h
    have hfi : findAcquiredBufferLocked s id = s.mMaxLockedBuffers := by
      unfold findAcquiredBufferLocked
      rw [findIdx_eq_length_of_not_mem _ _ hnm, hlen]
    simp [unlockBuffer, h0, hfi]

/-- Witness for C10: unlocking an id that no slot holds leaves a concrete
pool untouched and yields `BAD_VALUE`. -/
theorem cpuConsumer_unlockBuffer_error_atomic_witness :
    ((9 : Nat) ∉ ([5, 0] : List Nat))
    ∧ unlockBuffer ⟨2, 1, [5, 0]⟩ 9 none = (Status.badValue, ⟨2, 1, [5, 0]⟩) :=
  ⟨by decide,
   cpuConsumer_unlockBuffer_error_atomic ⟨2, 1, [5, 0]⟩ 9 none
     (by decide) (Or.inr (by decide))⟩

/-! ## Cursor input mapper
(src/services/inputflinger/reader/mapper/CursorInputMapper.h)

The header declares `CursorMotionAccumulator`, `CursorPositionAccumulator`
and `CursorInputMapper` (with `CursorButtonAccumulator` and
`CursorScrollAccumulator` from sibling headers) but the member-function
bodies are not among the sources, so each body below is modelled from the
specification. -/

/-- Linux input event type `EV_KEY`. -/
def EV_KEY : Int := 1
/-- Linux input event type `EV_REL`. -/
def EV_REL : Int := 2
/-- Linux input event type `EV_ABS`. -/
def EV_ABS : Int := 3
/-- Relative axis code for X. -/
def REL_X : Int := 0
/-- Relative axis code for Y. -/
def REL_Y : Int := 1
/-- Relative axis code for the horizontal wheel. -/
def REL_HWHEEL : Int := 6
/-- Relative axis code for the vertical wheel. -/
def REL_WHEEL : Int := 8
/-- Absolute axis code for X. -/
def ABS_X : Int := 0
/-- Absolute axis code for Y. -/
def ABS_Y : Int := 1
/-- Scan code of the primary mouse button (`BTN_MOUSE`, 0x110). -/
def BTN_MOUSE : Int := 272
/-- Scan code of the secondary mouse button. -/
def BTN_SECOND : Int := 273
/-- Scan code of the middle mouse button. -/
def BTN_MIDDLE : Int := 274

/-- A raw hardware event: (timestamp, type, code, value) for one device
(spec §3 RawEvent; the deviceId is fixed since one mapper serves one
device). -/
structure RawEvent where
  time : Int
  evType : Int
  code : Int
  value : Int
deriving DecidableEq

/-- Canonical button bit for a raw button scan code; 0 for codes outside
the recognized set. -/
def buttonBit (code : Int) : Nat :=
  if code = BTN_MOUSE then 1
  else if code = BTN_SECOND then 2
  else if code = BTN_MIDDLE then 4
  else 0

/-- Modelled from the spec: `CursorButtonAccumulator::process` (spec §4.1)
maps device-specific button codes to a canonical bitmask, setting the bit on
a press (value ≠ 0) and clearing it on a release; codes outside the
recognized set are ignored; state persists across sync windows. The
accumulator's .cpp is not among the sources. -/
def buttonProcess (b : Nat) (e : RawEvent) : Nat :=
  if e.evType = EV_KEY then
    let bit := buttonBit e.code
    if bit = 0 then b
    else if e.value ≠ 0 then b ||| bit
    else b - (b &&& bit)
  else b

/-- The two `int32_t` fields `mRelX`, `mRelY` of `CursorMotionAccumulator`
(header lines 47-49). -/
structure CursorMotionAccumulator where
  mRelX : Int
  mRelY : Int
deriving DecidableEq

/-- `clearRelativeAxes` (header line 51): both deltas zeroed. -/
def CursorMotionAccumulator.clearRelativeAxes : CursorMotionAccumulator := ⟨0, 0⟩

/-- Modelled from the spec: `CursorMotionAccumulator::reset` clears the
window state (spec §4.1, lifecycle). -/
def CursorMotionAccumulator.reset : CursorMotionAccumulator := ⟨0, 0⟩

/-- Modelled from the spec: `CursorMotionAccumulator::process` accumulates
the signed relative X/Y deltas seen within the current sync window
(spec §4.1 MotionAccumulator); events of other types or codes are ignored
(spec §7). The .cpp is not among the sources. -/
def CursorMotionAccumulator.process (a : CursorMotionAccumulator) (e : RawEvent) :
    CursorMotionAccumulator :=
  if e.evType = EV_REL then
    if e.code = REL_X then { a with mRelX := a.mRelX + e.value }
    else if e.code = REL_Y then { a with mRelY := a.mRelY + e.value }
    else a
  else a

/-- Modelled from the spec: `CursorMotionAccumulator::finishSync` is a no-op;
the deltas are cleared by the mapper's own synthesis, not here (spec §4.1,
§9 open question). -/
def CursorMotionAccumulator.finishSync (a : CursorMotionAccumulator) :
    CursorMotionAccumulator := a

def CursorMotionAccumulator.getRelativeX (a : CursorMotionAccumulator) : Int := a.mRelX

def CursorMotionAccumulator.getRelativeY (a : CursorMotionAccumulator) : Int := a.mRelY

/-- Modelled from the spec: `CursorPositionAccumulator::process` tracks
absolute X/Y where the device reports absolute coordinates (spec §4.1). -/
def posProcess (p : Int × Int) (e : RawEvent) : Int × Int :=
  if e.evType = EV_ABS then
    if e.code = ABS_X then (e.value, p.2)
    else if e.code = ABS_Y then (p.1, e.value)
    else p
  else p

/-- Modelled from the spec: `CursorScrollAccumulator::process` accumulates
vertical/horizontal wheel deltas within the sync window (spec §4.1);
first component vertical, second horizontal. -/
def scrollProcess (sc : Int × Int) (e : RawEvent) : Int × Int :=
  if e.evType = EV_REL then
    if e.code = REL_WHEEL then (sc.1 + e.value, sc.2)
    else if e.code = REL_HWHEEL then (sc.1, sc.2 + e.value)
    else sc
  else sc

/-- `VelocityControl` per-axis smoothing state (spec §4.2): last input
timestamp and the decaying velocity estimate. -/
structure VelocityControl where
  lastTime : Int
  velocity : Int
deriving DecidableEq

def VelocityControl.init : VelocityControl := ⟨0, 0⟩

/-- Modelled from the spec: the idle timeout after which the velocity
estimate decays to its baseline (spec §4.2), in nanoseconds. -/
def VC_RESET_TIMEOUT : Int := 300000000

/-- Modelled from the spec: the cap of the non-linear gain, making the
output saturating (spec §4.2). -/
def VC_MAX_GAIN : Int := 4

/-- Modelled from the spec: the non-linear gain applied to a delta —
near-unscaled for slow motion, progressively larger for fast continuous
motion, saturating at `VC_MAX_GAIN` (spec §4.2). -/
def VelocityControl.gain (vc : VelocityControl) (t d : Int) : Int :=
  let vel0 := if VC_RESET_TIMEOUT < t - vc.lastTime then 0 else vc.velocity
  let vel1 := (vel0 + d) / 2
  min VC_MAX_GAIN (1 + (vel1.natAbs / 3 : Nat))

/-- Modelled from the spec: one `VelocityControl` step on a single axis —
a pure numeric transform of the raw delta by the saturating gain, updating
the decaying estimate (spec §4.2). -/
def VelocityControl.move (vc : VelocityControl) (t d : Int) : VelocityControl × Int :=
  let vel0 := if VC_RESET_TIMEOUT < t - vc.lastTime then 0 else vc.velocity
  (⟨t, (vel0 + d) / 2⟩, d * vc.gain t d)

/-- Modelled from the spec: the pointer `VelocityControl` instance treats the
X and Y deltas jointly (spec §4.2), updating one estimate from the combined
magnitude and scaling both axes with the same gain. -/
def VelocityControl.moveXY (vc : VelocityControl) (t dx dy : Int) :
    VelocityControl × Int × Int :=
  let m : Int := (dx.natAbs + dy.natAbs : Nat)
  let vel0 := if VC_RESET_TIMEOUT < t - vc.lastTime then 0 else vc.velocity
  let g := vc.gain t m
  (⟨t, (vel0 + m) / 2⟩, (dx * g, dy * g))

/-- `Parameters::Mode` (header lines 97-101). -/
inductive Mode where
  | pointer
  | pointerRelative
  | navigation
deriving DecidableEq

/-- The immutable per-device `Parameters` (header lines 96-106). -/
structure Parameters where
  mode : Mode
  hasAssociatedDisplay : Bool
  orientationAware : Bool
deriving DecidableEq

/-- The four display orientations (spec §4.3 step 2). -/
inductive Orientation where
  | rot0
  | rot90
  | rot180
  | rot270
deriving DecidableEq

/-- Modelled from the spec: the fixed 2D rotation applied to the integer
delta pair before scaling (spec §4.3 step 2, property P3: (5,0) under 90
degrees becomes (0,5)). -/
def rotateDelta (o : Orientation) (d : Int × Int) : Int × Int :=
  match o with
  | Orientation.rot0 => d
  | Orientation.rot90 => (-d.2, d.1)
  | Orientation.rot180 => (-d.1, -d.2)
  | Orientation.rot270 => (d.2, -d.1)

/-- `TRACKBALL_MOVEMENT_THRESHOLD` (header line 93): amount the trackball
needs to move in order to generate a key event. -/
def TRACKBALL_MOVEMENT_THRESHOLD : Int := 6

/-- Directional navigation keys synthesized in NAVIGATION mode. -/
inductive NavKey where
  | dpadLeft
  | dpadRight
  | dpadUp
  | dpadDown
deriving DecidableEq

/-- An event emitted by a synthesis pass and handed to the dispatcher. -/
inductive Emitted where
  | motionArgs (t : Int) (dx dy : Int) (buttons : Nat) (downTime : Option Int)
  | buttonDownEvent (t : Int)
  | upEvent (t : Int)
  | key (k : NavKey) (down : Bool)
deriving DecidableEq

/-- Result of consuming one window's delta on one navigation axis: the new
running remainder, the number of key pairs emitted, and the direction. -/
structure NavStep where
  newRem : Int
  pairs : Nat
  positive : Bool
deriving DecidableEq

/-- Modelled from the spec: one NAVIGATION-mode axis update (spec §4.3
step 7). The window's delta joins the running remainder; one key pair is
emitted per whole threshold multiple contained in its magnitude; the
consumed amount is subtracted and the partial remainder carries over. -/
def navAxisStep (rem delta : Int) : NavStep :=
  let t := rem + delta
  let k := t.natAbs / TRACKBALL_MOVEMENT_THRESHOLD.toNat
  if 0 ≤ t then
    ⟨t - (k : Int) * TRACKBALL_MOVEMENT_THRESHOLD, k, true⟩
  else
    ⟨t + (k : Int) * TRACKBALL_MOVEMENT_THRESHOLD, k, false⟩

/-- The directional key for one axis and sign (spec §4.3 step 7: LEFT/RIGHT
for X, UP/DOWN for Y depending on sign; positive Y moves down in display
coordinates). -/
def navKeyFor (isX : Bool) (positive : Bool) : NavKey :=
  if isX then (if positive then NavKey.dpadRight else NavKey.dpadLeft)
  else (if positive then NavKey.dpadDown else NavKey.dpadUp)

/-- `n` paired key-down+key-up events for one key. -/
def keyPairList (k : NavKey) : Nat → List Emitted
  | 0 => []
  | n + 1 => Emitted.key k true :: Emitted.key k false :: keyPairList k n

/-- The key events one navigation axis emits for one window. -/
def navAxisEvents (isX : Bool) (st : NavStep) : List Emitted :=
  keyPairList (navKeyFor isX st.positive) st.pairs

/-- Modelled from the spec: the button-transition part of synthesis
(spec §4.3 step 8): a transition to any-button-down sets the down-time to
the current timestamp only if not already set; a transition to no-buttons-
down emits the final up event and clears the down-time; otherwise both are
untouched. -/
def buttonTransition (prev curr : Nat) (dt : Option Int) (t : Int) :
    Option Int × List Emitted :=
  if prev = 0 ∧ ¬ curr = 0 then
    ((if dt.isNone then some t else dt), [Emitted.buttonDownEvent t])
  else if ¬ prev = 0 ∧ curr = 0 then
    (none, [Emitted.upEvent t])
  else (dt, [])

/-- The `CursorInputMapper` state (header lines 91-139): parameters, the
four accumulators, scale and precision configuration, the three velocity
controls, orientation, the pointer-controller position, the previous
window's button state and the down-time, plus the NAVIGATION running
remainders (spec §4.3 step 7). -/
structure CursorInputMapper where
  mParameters : Parameters
  mCursorButtonAccumulator : Nat
  mCursorMotionAccumulator : CursorMotionAccumulator
  mCursorPositionAccumulator : Int × Int
  mCursorScrollAccumulator : Int × Int
  mXScale : Int
  mYScale : Int
  mVWheelScale : Int
  mHWheelScale : Int
  mPointerVelocityControl : VelocityControl
  mWheelXVelocityControl : VelocityControl
  mWheelYVelocityControl : VelocityControl
  mOrientation : Orientation
  pointerPos : Int × Int
  mButtonState : Nat
  mDownTime : Option Int
  navRemX : Int
  navRemY : Int
deriving DecidableEq

/-- The freshly reset mapper for given parameters: all accumulators reset,
no button state, no down-time, zero navigation remainders (spec §4.3
`reset`). -/
def mkMapper (p : Parameters) : CursorInputMapper :=
  ⟨p, 0, CursorMotionAccumulator.reset, (0, 0), (0, 0), 1, 1, 1, 1,
   VelocityControl.init, VelocityControl.init, VelocityControl.init,
   Orientation.rot0, (0, 0), 0, none, 0, 0⟩

/-- Modelled from the spec: `CursorInputMapper::process` forwards every raw
event to all four accumulators; this is non-branching and mode-independent
(spec §4.3). -/
def CursorInputMapper.process (s : CursorInputMapper) (e : RawEvent) :
    CursorInputMapper :=
  { s with
      mCursorButtonAccumulator := buttonProcess s.mCursorButtonAccumulator e,
      mCursorMotionAccumulator := s.mCursorMotionAccumulator.process e,
      mCursorPositionAccumulator := posProcess s.mCursorPositionAccumulator e,
      mCursorScrollAccumulator := scrollProcess s.mCursorScrollAccumulator e }

/-- Modelled from the spec: the POINTER / POINTER_RELATIVE tail of `sync`
(spec §4.3 steps 3-6, 8): velocity-scale the rotated deltas and the wheel
deltas, apply the configured scales, move the shared pointer position in
POINTER mode only, and emit one motion record carrying the current buttons
and down-time after the transition events. -/
def pointerSyncCore (s : CursorInputMapper) (t : Int) (rotated : Int × Int)
    (currentButtons : Nat) (scrollV scrollH : Int) (bt : Option Int × List Emitted)
    (relativeMode : Bool) : CursorInputMapper × List Emitted :=
  let pv := s.mPointerVelocityControl.moveXY t rotated.1 rotated.2
  let wx := s.mWheelXVelocityControl.move t scrollH
  let wy := s.mWheelYVelocityControl.move t scrollV
  let sdx := pv.2.1 * s.mXScale
  let sdy := pv.2.2 * s.mYScale
  let newPos :=
    if relativeMode then s.pointerPos
    else (s.pointerPos.1 + sdx, s.pointerPos.2 + sdy)
  ({ s with
      mCursorMotionAccumulator := CursorMotionAccumulator.clearRelativeAxes,
      mCursorScrollAccumulator := (0, 0),
      mButtonState := currentButtons,
      mDownTime := bt.1,
      mPointerVelocityControl := pv.1,
      mWheelXVelocityControl := wx.1,
      mWheelYVelocityControl := wy.1,
      pointerPos := newPos },
   bt.2 ++ [Emitted.motionArgs t sdx sdy currentButtons bt.1])

/-- Modelled from the spec: `CursorInputMapper::sync` (header line 138,
spec §4.3 synthesis). At the start of synthesis the accumulated window
values are read exactly once and the window-scoped accumulators cleared;
the deltas are then rotated when orientation-aware, button transitions
resolved, and the mode-specific tail runs: NAVIGATION feeds the rotated raw
deltas into the per-axis running remainders emitting discrete key pairs,
the pointer modes emit one motion record (NAVIGATION does not read the
velocity controls or scales, spec §7). -/
def CursorInputMapper.sync (s : CursorInputMapper) (t : Int) :
    CursorInputMapper × List Emitted :=
  let deltaX := s.mCursorMotionAccumulator.getRelativeX
  let deltaY := s.mCursorMotionAccumulator.getRelativeY
  let currentButtons := s.mCursorButtonAccumulator
  let scrollV := s.mCursorScrollAccumulator.1
  let scrollH := s.mCursorScrollAccumulator.2
  let rotated :=
    if s.mParameters.orientationAware then rotateDelta s.mOrientation (deltaX, deltaY)
    else (deltaX, deltaY)
  let bt := buttonTransition s.mButtonState currentButtons s.mDownTime t
  match s.mParameters.mode with
  | Mode.navigation =>
      let stX := navAxisStep s.navRemX rotated.1
      let stY := navAxisStep s.navRemY rotated.2
      ({ s with
          mCursorMotionAccumulator := CursorMotionAccumulator.clearRelativeAxes,
          mCursorScrollAccumulator := (0, 0),
          mButtonState := currentButtons,
          mDownTime := bt.1,
          navRemX := stX.newRem,
          navRemY := stY.newRem },
       bt.2 ++ navAxisEvents true stX ++ navAxisEvents false stY)
  | Mode.pointer =>
      pointerSyncCore s t rotated currentButtons scrollV scrollH bt false
  | Mode.pointerRelative =>
      pointerSyncCore s t rotated currentButtons scrollV scrollH bt true

/-- Modelled from the spec: `CursorInputMapper::configure` (header lines
82-83). When the change set affects the mode, the mapper is fully reset —
all accumulators, button state, down-time and remainders — before adopting
the new parameters (spec §4.3); otherwise only the parameters snapshot is
re-derived. -/
def CursorInputMapper.configure (s : CursorInputMapper) (newParams : Parameters)
    (modeChanged : Bool) : CursorInputMapper :=
  if modeChanged then mkMapper newParams
  else { s with mParameters := newParams }

/-- Modelled from the spec: `CursorInputMapper::getScanCodeState` (header
line 87) reports the up/down/unknown status of a queried button from
ButtonAccumulator state only (spec §4.3 query operation); 1 is
AKEY_STATE_DOWN, 0 AKEY_STATE_UP, -1 AKEY_STATE_UNKNOWN. -/
def CursorInputMapper.getScanCodeState (s : CursorInputMapper)
    (sourceMask : Nat) (scanCode : Int) : Int :=
  if buttonBit scanCode = 0 then -1
  else if s.mCursorButtonAccumulator &&& buttonBit scanCode ≠ 0 then 1 else 0

/-- Modelled from the spec: error-aware rendering of the synthesis step,
mirroring `CursorInputMapper.sync` stage by stage inside `Option`; the spec
(§7) asserts synthesis has no error branches, so every mode arm yields a
value. -/
def CursorInputMapper.syncChecked (s : CursorInputMapper) (t : Int) :
    Option (CursorInputMapper × List Emitted) :=
  let deltaX := s.mCursorMotionAccumulator.getRelativeX
  let deltaY := s.mCursorMotionAccumulator.getRelativeY
  let currentButtons := s.mCursorButtonAccumulator
  let scrollV := s.mCursorScrollAccumulator.1
  let scrollH := s.mCursorScrollAccumulator.2
  let rotated :=
    if s.mParameters.orientationAware then rotateDelta s.mOrientation (deltaX, deltaY)
    else (deltaX, deltaY)
  let bt := buttonTransition s.mButtonState currentButtons s.mDownTime t
  match s.mParameters.mode with
  | Mode.navigation =>
      let stX := navAxisStep s.navRemX rotated.1
      let stY := navAxisStep s.navRemY rotated.2
      some
        ({ s with
            mCursorMotionAccumulator := CursorMotionAccumulator.clearRelativeAxes,
            mCursorScrollAccumulator := (0, 0),
            mButtonState := currentButtons,
            mDownTime := bt.1,
            navRemX := stX.newRem,
            navRemY := stY.newRem },
         bt.2 ++ navAxisEvents true stX ++ navAxisEvents false stY)
  | Mode.pointer =>
      some (pointerSyncCore s t rotated currentButtons scrollV scrollH bt false)
  | Mode.pointerRelative =>
      some (pointerSyncCore s t rotated currentButtons scrollV scrollH bt true)

/-- The exact signed sum of the deltas a raw-event sequence carries on one
relative axis; this renders the spec wording "the exact sum of the raw
deltas received since the last window boundary" for comparison with the
accumulator. -/
def relAxisSum (code : Int) (es : List RawEvent) : Int :=
  es.foldr
    (fun e acc => if e.evType = EV_REL ∧ e.code = code then e.value + acc else acc) 0

lemma process_mRelX (a : CursorMotionAccumulator) (e : RawEvent) :
    (a.process e).mRelX
      = a.mRelX + (if e.evType = EV_REL ∧ e.code = REL_X then e.value else 0) := by
  unfold CursorMotionAccumulator.process
  by_cases h1 : e.evType = EV_REL
  · rw [if_pos h1]
    by_cases h2 : e.code = REL_X
    · rw [if_pos h2, if_pos ⟨h1, h2⟩]
    · rw [if_neg h2]
      by_cases h3 : e.code = REL_Y
      · rw [if_pos h3,
          if_neg (show ¬ (e.evType = EV_REL ∧ e.code = REL_X) from fun hc => h2 hc.2)]
        simp
      · rw [if_neg h3,
          if_neg (show ¬ (e.evType = EV_REL ∧ e.code = REL_X) from fun hc => h2 hc.2)]
        simp
  · rw [if_neg h1,
      if_neg (show ¬ (e.evType = EV_REL ∧ e.code = REL_X) from fun hc => h1 hc.1)]
    simp

lemma process_mRelY (a : CursorMotionAccumulator) (e : RawEvent) :
    (a.process e).mRelY
      = a.mRelY + (if e.evType = EV_REL ∧ e.code = REL_Y then e.value else 0) := by
  unfold CursorMotionAccumulator.process
  by_cases h1 : e.evType = EV_REL
  · rw [if_pos h1]
    by_cases h2 : e.code = REL_X
    · have h3 : ¬ (e.evType = EV_REL ∧ e.code = REL_Y) := by
        rintro ⟨-, hy⟩
        rw [h2] at hy
        exact absurd hy (by decide)
      rw [if_pos h2, if_neg h3]
      simp
    · rw [if_neg h2]
      by_cases h3 : e.code = REL_Y
      · rw [if_pos h3, if_pos ⟨h1, h3⟩]
      · rw [if_neg h3,
          if_neg (show ¬ (e.evType = EV_REL ∧ e.code = REL_Y) from fun hc => h3 hc.2)]
        simp
  · rw [if_neg h1,
      if_neg (show ¬ (e.evType = EV_REL ∧ e.code = REL_Y) from fun hc => h1 hc.1)]
    simp

lemma motion_foldl_relX (es : List RawEvent) (a : CursorMotionAccumulator) :
    (es.foldl CursorMotionAccumulator.process a).mRelX = a.mRelX + relAxisSum REL_X es := by
  induction es generalizing a with
  | nil => simp [relAxisSum]
  | cons e es ih =>
      rw [List.foldl_cons, ih, process_mRelX]
      simp only [relAxisSum, List.foldr_cons]
      by_cases hc : e.evType = EV_REL ∧ e.code = REL_X
      · rw [if_pos hc, if_pos hc]
        ring
      · rw [if_neg hc, if_neg hc]
        ring

lemma motion_foldl_relY (es : List RawEvent) (a : CursorMotionAccumulator) :
    (es.foldl CursorMotionAccumulator.process a).mRelY = a.mRelY + relAxisSum REL_Y es := by
  induction es generalizing a with
  | nil => simp [relAxisSum]
  | cons e es ih =>
      rw [List.foldl_cons, ih, process_mRelY]
      simp only [relAxisSum, List.foldr_cons]
      by_cases hc : e.evType = EV_REL ∧ e.code = REL_Y
      · rw [if_pos hc, if_pos hc]
        ring
      · rw [if_neg hc, if_neg hc]
        ring

lemma mapper_process_motion (es : List RawEvent) (s : CursorInputMapper) :
    (es.foldl CursorInputMapper.process s).mCursorMotionAccumulator
      = es.foldl CursorMotionAccumulator.process s.mCursorMotionAccumulator := by
  induction es generalizing s with
  | nil => rfl
  | cons e es ih =>
      rw [List.foldl_cons, List.foldl_cons]
      exact ih (s.process e)

/-- C2: the accumulator is exact. For every interleaving of raw events in a
window, the relative X and Y deltas it reports equal the exact signed sum of
the relative deltas received since the window boundary (the last cleared
state): nothing is double-counted, nothing is dropped. The mapper routes
each raw event to the motion accumulator exactly once, so the same holds
through `CursorInputMapper.process`. -/
theorem cursorMotionAccumulator_exact_sum :
    (∀ (es : List RawEvent) (a : CursorMotionAccumulator),
        (es.foldl CursorMotionAccumulator.process a).getRelativeX
            = a.getRelativeX + relAxisSum REL_X es
        ∧ (es.foldl CursorMotionAccumulator.process a).getRelativeY
            = a.getRelativeY + relAxisSum REL_Y es)
    ∧ (∀ (es : List RawEvent) (s : CursorInputMapper),
        (es.foldl CursorInputMapper.process s).mCursorMotionAccumulator
          = es.foldl CursorMotionAccumulator.process s.mCursorMotionAccumulator)
    ∧ (∀ es : List RawEvent,
        (es.foldl CursorMotionAccumulator.process CursorMotionAccumulator.reset).getRelativeX
            = relAxisSum REL_X es
        ∧ (es.foldl CursorMotionAccumulator.process CursorMotionAccumulator.reset).getRelativeY
            = relAxisSum REL_Y es) := by
  refine ⟨fun es a => ⟨motion_foldl_relX es a, motion_foldl_relY es a⟩,
    mapper_process_motion, fun es => ⟨?_, ?_⟩⟩
  · have h := motion_foldl_relX es CursorMotionAccumulator.reset
    simpa [CursorMotionAccumulator.reset, CursorMotionAccumulator.getRelativeX] using h
  · have h := motion_foldl_relY es CursorMotionAccumulator.reset
    simpa [CursorMotionAccumulator.reset, CursorMotionAccumulator.getRelativeY] using h

/-- C4: `finishSync` is a no-op on the accumulated deltas — indeed on the
whole accumulator — and the clearing of the window's deltas is performed by
the mapper's synthesis itself (every `sync` leaves the motion accumulator
cleared), so the mapper reads each window's accumulated values exactly
once. -/
theorem cursorMotionAccumulator_finishSync_noop :
    (∀ a : CursorMotionAccumulator,
        a.finishSync.getRelativeX = a.getRelativeX
        ∧ a.finishSync.getRelativeY = a.getRelativeY
        ∧ a.finishSync = a)
    ∧ (∀ (s : CursorInputMapper) (t : Int),
        ((s.sync t).1).mCursorMotionAccumulator
          = CursorMotionAccumulator.clearRelativeAxes) := by
  constructor
  · intro a
    exact ⟨rfl, rfl, rfl⟩
  · intro s t
    cases h : s.mParameters.mode <;>
      simp [CursorInputMapper.sync, pointerSyncCore, h]

/-- A reader-thread history on one mapper: raw-event deliveries interleaved
with sync boundaries. -/
inductive MapperOp where
  | raw (e : RawEvent)
  | syncAt (t : Int)

def runMapperOps (s : CursorInputMapper) (ops : List MapperOp) : CursorInputMapper :=
  ops.foldl
    (fun st op =>
      match op with
      | MapperOp.raw e => st.process e
      | MapperOp.syncAt t => (st.sync t).1) s

/-- C3: a mode-affecting `configure` fully resets the mapper before adopting
the new mode: the result is the freshly reset mapper — all four accumulators
reset, button state and down-time cleared, navigation remainders zeroed — so
any history of raw events and syncs processed before the change has zero
effect on the state and on any synthesis performed after it. -/
theorem cursorInputMapper_configure_mode_reset :
    ∀ (s : CursorInputMapper) (ops : List MapperOp) (p : Parameters),
      (s.configure p true = mkMapper p)
      ∧ ((runMapperOps s ops).configure p true = s.configure p true)
      ∧ ((s.configure p true).mCursorButtonAccumulator = 0
          ∧ (s.configure p true).mCursorMotionAccumulator = CursorMotionAccumulator.reset
          ∧ (s.configure p true).mCursorPositionAccumulator = (0, 0)
          ∧ (s.configure p true).mCursorScrollAccumulator = (0, 0)
          ∧ (s.configure p true).mButtonState = 0
          ∧ (s.configure p true).mDownTime = none
          ∧ (s.configure p true).navRemX = 0
          ∧ (s.configure p true).navRemY = 0)
      ∧ (∀ t : Int,
          ((runMapperOps s ops).configure p true).sync t
            = (s.configure p true).sync t) := by
  intro s ops p
  refine ⟨rfl, rfl, ⟨rfl, rfl, rfl, rfl, rfl, rfl, rfl, rfl⟩, fun t => rfl⟩

lemma sync_buttonAcc (s : CursorInputMapper) (t : Int) :
    ((s.sync t).1).mCursorButtonAccumulator = s.mCursorButtonAccumulator := by
  cases h : s.mParameters.mode <;>
    simp [CursorInputMapper.sync, pointerSyncCore, h]

/-- C7: `getScanCodeState` consults ButtonAccumulator state only — two
mapper states with the same button-accumulator bitmask answer every query
identically — and running synthesis any number of times does not change its
answer (synthesis leaves the button accumulator untouched). Being a pure
function of the state, the query mutates nothing. -/
theorem cursorInputMapper_getScanCodeState_pure :
    (∀ (s1 s2 : CursorInputMapper) (m : Nat) (c : Int),
        s1.mCursorButtonAccumulator = s2.mCursorButtonAccumulator →
        s1.getScanCodeState m c = s2.getScanCodeState m c)
    ∧ (∀ (s : CursorInputMapper) (t : Int) (m : Nat) (c : Int),
        ((s.sync t).1).getScanCodeState m c = s.getScanCodeState m c) := by
  constructor
  · intro s1 s2 m c h
    simp [CursorInputMapper.getScanCodeState, h]
  · intro s t m c
    simp [CursorInputMapper.getScanCodeState, sync_buttonAcc]

/-- Witness for C7: two concrete mappers differing in mode and down-time but
agreeing on the button accumulator answer the BTN_MOUSE query alike. -/
theorem cursorInputMapper_getScanCodeState_pure_witness :
    ((mkMapper ⟨Mode.pointer, true, false⟩).mCursorButtonAccumulator
        = ({ mkMapper ⟨Mode.navigation, false, false⟩ with
              mDownTime := some 9 } : CursorInputMapper).mCursorButtonAccumulator)
    ∧ (mkMapper ⟨Mode.pointer, true, false⟩).getScanCodeState 0 BTN_MOUSE
        = ({ mkMapper ⟨Mode.navigation, false, false⟩ with
              mDownTime := some 9 } : CursorInputMapper).getScanCodeState 0 BTN_MOUSE :=
  ⟨by decide, cursorInputMapper_getScanCodeState_pure.1 _ _ 0 BTN_MOUSE (by decide)⟩

lemma gain_bounds (vc : VelocityControl) (t d : Int) :
    1 ≤ vc.gain t d ∧ vc.gain t d ≤ VC_MAX_GAIN := by
  simp only [VelocityControl.gain]
  refine ⟨le_min (by norm_num [VC_MAX_GAIN]) (by omega), min_le_left _ _⟩

/-- C8: synthesis and the velocity transform are total. The error-aware
rendering of `sync` returns a value on every state and timestamp (no error
branch is reachable), and `VelocityControl.move` is a pure numeric transform
whose gain is saturated into [1, VC_MAX_GAIN], so its output magnitude is
bounded by the input magnitude times the cap — it never errors. -/
theorem cursorInputMapper_sync_total :
    (∀ (s : CursorInputMapper) (t : Int), s.syncChecked t = some (s.sync t))
    ∧ (∀ (vc : VelocityControl) (t d : Int),
        (vc.move t d).2 = d * vc.gain t d
        ∧ 1 ≤ vc.gain t d
        ∧ vc.gain t d ≤ VC_MAX_GAIN
        ∧ (vc.move t d).2.natAbs ≤ d.natAbs * VC_MAX_GAIN.toNat) := by
  constructor
  · intro s t
    cases h : s.mParameters.mode <;>
      simp [CursorInputMapper.syncChecked, CursorInputMapper.sync, h]
  · intro vc t d
    obtain ⟨h1, h2⟩ := gain_bounds vc t d
    refine ⟨rfl, h1, h2, ?_⟩
    have hmove : (vc.move t d).2 = d * vc.gain t d := rfl
    rw [hmove, Int.natAbs_mul]
    have hg : (vc.gain t d).natAbs ≤ 4 := by
      simp only [VC_MAX_GAIN] at h2
      omega
    calc d.natAbs * (vc.gain t d).natAbs ≤ d.natAbs * 4 :=
          Nat.mul_le_mul_left _ hg
      _ = d.natAbs * VC_MAX_GAIN.toNat := rfl

/-! ### C5: down-time across a continuous button press -/

/-- Raw press of the primary mouse button. -/
def btnDownEv : RawEvent := ⟨0, EV_KEY, BTN_MOUSE, 1⟩

/-- Raw release of the primary mouse button. -/
def btnUpEv : RawEvent := ⟨0, EV_KEY, BTN_MOUSE, 0⟩

/-- Pointer-mode parameters for the press-span scenario. -/
def pointerParams : Parameters := ⟨Mode.pointer, true, false⟩

def processList (s : CursorInputMapper) (es : List RawEvent) : CursorInputMapper :=
  es.foldl CursorInputMapper.process s

/-- One sync window: its raw events followed by the sync at its timestamp. -/
def runWindow (s : CursorInputMapper) (w : List RawEvent × Int) :
    CursorInputMapper × List Emitted :=
  (processList s w.1).sync w.2

def runWindowsAcc : CursorInputMapper → List (List RawEvent × Int) →
    CursorInputMapper × List Emitted
  | s, [] => (s, [])
  | s, w :: ws =>
      let r := runWindow s w
      let rest := runWindowsAcc r.1 ws
      (rest.1, r.2 ++ rest.2)

def isUpEvent : Emitted → Bool
  | Emitted.upEvent _ => true
  | _ => false

def isButtonDownEvent : Emitted → Bool
  | Emitted.buttonDownEvent _ => true
  | _ => false

def countUpEvents (es : List Emitted) : Nat := es.countP isUpEvent

def countButtonDownEvents (es : List Emitted) : Nat := es.countP isButtonDownEvent

/-- The window that starts the press: the button-down raw event, synced. -/
def spanStart (t0 : Int) : CursorInputMapper × List Emitted :=
  ((mkMapper pointerParams).process btnDownEv).sync t0

/-- The motion-only windows in the middle of the press. -/
def spanMid (t0 : Int) (ws : List (List RawEvent × Int)) :
    CursorInputMapper × List Emitted :=
  runWindowsAcc (spanStart t0).1 ws

/-- The window that ends the press: the button-up raw event, synced. -/
def spanEnd (t0 : Int) (ws : List (List RawEvent × Int)) (tz : Int) :
    CursorInputMapper × List Emitted :=
  (((spanMid t0 ws).1).process btnUpEv).sync tz

lemma buttonProcess_rel (b : Nat) (e : RawEvent) (h : e.evType = EV_REL) :
    buttonProcess b e = b := by
  unfold buttonProcess
  rw [if_neg (show ¬ e.evType = EV_KEY by rw [h]; decide)]

lemma processList_fixed (es : List RawEvent) (s : CursorInputMapper) :
    (processList s es).mButtonState = s.mButtonState
    ∧ (processList s es).mDownTime = s.mDownTime
    ∧ (processList s es).mParameters = s.mParameters := by
  induction es generalizing s with
  | nil => exact ⟨rfl, rfl, rfl⟩
  | cons e es ih => exact ih (s.process e)

lemma processList_buttonAcc (es : List RawEvent) (s : CursorInputMapper)
    (h : ∀ e ∈ es, e.evType = EV_REL) :
    (processList s es).mCursorButtonAccumulator = s.mCursorButtonAccumulator := by
  induction es generalizing s with
  | nil => rfl
  | cons e es ih =>
      have he : e.evType = EV_REL := h e (List.mem_cons_self e es)
      have hrest := ih (s.process e) (fun x hx => h x (List.mem_cons_of_mem e hx))
      calc (processList s (e :: es)).mCursorButtonAccumulator
          = (s.process e).mCursorButtonAccumulator := hrest
        _ = buttonProcess s.mCursorButtonAccumulator e := rfl
        _ = s.mCursorButtonAccumulator := buttonProcess_rel _ _ he

lemma sync_steady (s : CursorInputMapper) (t : Int)
    (hmode : s.mParameters.mode = Mode.pointer)
    (hbs : s.mButtonState = s.mCursorButtonAccumulator)
    (hnz : ¬ s.mCursorButtonAccumulator = 0) :
    ((s.sync t).1).mButtonState = s.mCursorButtonAccumulator
    ∧ ((s.sync t).1).mCursorButtonAccumulator = s.mCursorButtonAccumulator
    ∧ ((s.sync t).1).mDownTime = s.mDownTime
    ∧ ((s.sync t).1).mParameters = s.mParameters
    ∧ countUpEvents (s.sync t).2 = 0
    ∧ countButtonDownEvents (s.sync t).2 = 0 := by
  have hA : ¬ (s.mButtonState = 0 ∧ ¬ s.mCursorButtonAccumulator = 0) := by
    rintro ⟨hp, -⟩
    rw [hbs] at hp
    exact hnz hp
  have hB : ¬ (¬ s.mButtonState = 0 ∧ s.mCursorButtonAccumulator = 0) := by
    rintro ⟨-, hc⟩
    exact hnz hc
  have hbt : buttonTransition s.mButtonState s.mCursorButtonAccumulator s.mDownTime t
      = (s.mDownTime, []) := by
    unfold buttonTransition
    rw [if_neg hA, if_neg hB]
  simp [CursorInputMapper.sync, pointerSyncCore, hmode, hbt,
    countUpEvents, countButtonDownEvents, isUpEvent, isButtonDownEvent]

lemma sync_release (s : CursorInputMapper) (t : Int)
    (hmode : s.mParameters.mode = Mode.pointer)
    (hbs : ¬ s.mButtonState = 0)
    (hacc : s.mCursorButtonAccumulator = 0) :
    ((s.sync t).1).mDownTime = none
    ∧ countUpEvents (s.sync t).2 = 1
    ∧ countButtonDownEvents (s.sync t).2 = 0 := by
  have hA : ¬ (s.mButtonState = 0 ∧ ¬ s.mCursorButtonAccumulator = 0) := by
    rintro ⟨hp, -⟩
    exact hbs hp
  have hbt : buttonTransition s.mButtonState s.mCursorButtonAccumulator s.mDownTime t
      = (none, [Emitted.upEvent t]) := by
    unfold buttonTransition
    rw [if_neg hA, if_pos ⟨hbs, hacc⟩]
  simp [CursorInputMapper.sync, pointerSyncCore, hmode, hbt,
    countUpEvents, countButtonDownEvents, isUpEvent, isButtonDownEvent]

lemma runWindowsAcc_pressed (ws : List (List RawEvent × Int)) (t0 : Int)
    (s : CursorInputMapper)
    (hm : ∀ w ∈ ws, ∀ e ∈ w.1, e.evType = EV_REL)
    (hp : s.mParameters = pointerParams)
    (hacc : s.mCursorButtonAccumulator = 1)
    (hbs : s.mButtonState = 1)
    (hdt : s.mDownTime = some t0) :
    (runWindowsAcc s ws).1.mParameters = pointerParams
    ∧ (runWindowsAcc s ws).1.mCursorButtonAccumulator = 1
    ∧ (runWindowsAcc s ws).1.mButtonState = 1
    ∧ (runWindowsAcc s ws).1.mDownTime = some t0
    ∧ countUpEvents (runWindowsAcc s ws).2 = 0
    ∧ countButtonDownEvents (runWindowsAcc s ws).2 = 0 := by
  induction ws generalizing s with
  | nil => exact ⟨hp, hacc, hbs, hdt, rfl, rfl⟩
  | cons w ws ih =>
      have hw : ∀ e ∈ w.1, e.evType = EV_REL := hm w (List.mem_cons_self w ws)
      have hrest : ∀ x ∈ ws, ∀ e ∈ x.1, e.evType = EV_REL :=
        fun x hx => hm x (List.mem_cons_of_mem w hx)
      obtain ⟨hfb, hfd, hfp⟩ := processList_fixed w.1 s
      have hacc1 : (processList s w.1).mCursorButtonAccumulator = 1 :=
        (processList_buttonAcc w.1 s hw).trans hacc
      have hmode1 : (processList s w.1).mParameters.mode = Mode.pointer := by
        rw [hfp, hp]
        rfl
      have hbs1 : (processList s w.1).mButtonState
          = (processList s w.1).mCursorButtonAccumulator := by
        rw [hfb, hbs, hacc1]
      have hnz1 : ¬ (processList s w.1).mCursorButtonAccumulator = 0 := by
        rw [hacc1]
        decide
      obtain ⟨q1, q2, q3, q4, q5, q6⟩ := sync_steady (processList s w.1) w.2 hmode1 hbs1 hnz1
      have hs1p : ((runWindow s w).1).mParameters = pointerParams := by
        rw [show (runWindow s w).1 = ((processList s w.1).sync w.2).1 from rfl, q4, hfp, hp]
      have hs1a : ((runWindow s w).1).mCursorButtonAccumulator = 1 := by
        rw [show (runWindow s w).1 = ((processList s w.1).sync w.2).1 from rfl, q2, hacc1]
      have hs1b : ((runWindow s w).1).mButtonState = 1 := by
        rw [show (runWindow s w).1 = ((processList s w.1).sync w.2).1 from rfl, q1, hacc1]
      have hs1d : ((runWindow s w).1).mDownTime = some t0 := by
        rw [show (runWindow s w).1 = ((processList s w.1).sync w.2).1 from rfl, q3, hfd, hdt]
      obtain ⟨r1, r2, r3, r4, r5, r6⟩ := ih (runWindow s w).1 hrest hs1p hs1a hs1b hs1d
      refine ⟨r1, r2, r3, r4, ?_, ?_⟩
      · show countUpEvents ((runWindow s w).2 ++ (runWindowsAcc (runWindow s w).1 ws).2) = 0
        rw [countUpEvents, List.countP_append]
        have : countUpEvents (runWindow s w).2 = 0 := q5
        rw [countUpEvents] at this r5
        omega
      · show countButtonDownEvents
            ((runWindow s w).2 ++ (runWindowsAcc (runWindow s w).1 ws).2) = 0
        rw [countButtonDownEvents, List.countP_append]
        have : countButtonDownEvents (runWindow s w).2 = 0 := q6
        rw [countButtonDownEvents] at this r6
        omega

lemma buttonProcess_btnUp (b : Nat) (h : b = 1) : buttonProcess b btnUpEv = 0 := by
  subst h
  decide

lemma spanStart_spec (t0 : Int) :
    (spanStart t0).1.mParameters = pointerParams
    ∧ (spanStart t0).1.mCursorButtonAccumulator = 1
    ∧ (spanStart t0).1.mButtonState = 1
    ∧ (spanStart t0).1.mDownTime = some t0
    ∧ countUpEvents (spanStart t0).2 = 0
    ∧ countButtonDownEvents (spanStart t0).2 = 1 :=
  ⟨rfl, rfl, rfl, rfl, rfl, rfl⟩

/-- The C5 conclusion: the down-time is assigned once by the window
containing the button-down transition, kept as the same non-null value over
every motion-only window, and the window containing the button-up
transition emits exactly one terminating up event and clears the
down-time. -/
def PressSpanConcl (ws : List (List RawEvent × Int)) (t0 tz : Int) : Prop :=
  (spanStart t0).1.mDownTime = some t0
  ∧ countButtonDownEvents (spanStart t0).2 = 1
  ∧ countUpEvents (spanStart t0).2 = 0
  ∧ (spanMid t0 ws).1.mDownTime = some t0
  ∧ countButtonDownEvents (spanMid t0 ws).2 = 0
  ∧ countUpEvents (spanMid t0 ws).2 = 0
  ∧ (spanEnd t0 ws tz).1.mDownTime = none
  ∧ countUpEvents (spanEnd t0 ws tz).2 = 1
  ∧ countButtonDownEvents (spanEnd t0 ws tz).2 = 0

/-- C5: across a continuous press — button-down, any number of motion-only
sync windows, button-up — the mapper assigns the down-time exactly once (at
the down transition, because it was not already set), keeps that single
non-null value for the whole span, and at the up transition emits exactly
one terminating up event and clears the down-time. -/
theorem cursorInputMapper_downTime_once (ws : List (List RawEvent × Int))
    (t0 tz : Int) (hm : ∀ w ∈ ws, ∀ e ∈ w.1, e.evType = EV_REL) :
    PressSpanConcl ws t0 tz := by
  obtain ⟨p1, p2, p3, p4, p5, p6⟩ := spanStart_spec t0
  obtain ⟨m1, m2, m3, m4, m5, m6⟩ :=
    runWindowsAcc_pressed ws t0 (spanStart t0).1 hm p1 p2 p3 p4
  have hmode : (((spanMid t0 ws).1).process btnUpEv).mParameters.mode = Mode.pointer := by
    show ((spanMid t0 ws).1).mParameters.mode = Mode.pointer
    rw [show (spanMid t0 ws).1 = (runWindowsAcc (spanStart t0).1 ws).1 from rfl, m1]
    rfl
  have hbs : ¬ (((spanMid t0 ws).1).process btnUpEv).mButtonState = 0 := by
    show ¬ ((spanMid t0 ws).1).mButtonState = 0
    rw [show (spanMid t0 ws).1 = (runWindowsAcc (spanStart t0).1 ws).1 from rfl, m3]
    decide
  have hacc : (((spanMid t0 ws).1).process btnUpEv).mCursorButtonAccumulator = 0 := by
    show buttonProcess ((spanMid t0 ws).1).mCursorButtonAccumulator btnUpEv = 0
    exact buttonProcess_btnUp _
      (by rw [show (spanMid t0 ws).1 = (runWindowsAcc (spanStart t0).1 ws).1 from rfl, m2])
  obtain ⟨e1, e2, e3⟩ := sync_release (((spanMid t0 ws).1).process btnUpEv) tz hmode hbs hacc
  exact ⟨p4, p6, p5, m4, m6, m5, e1, e2, e3⟩

/-- Witness for C5: a concrete press span with one motion-only window. -/
theorem cursorInputMapper_downTime_once_witness :
    (∀ w ∈ ([([⟨0, EV_REL, REL_X, 3⟩], 100)] : List (List RawEvent × Int)),
        ∀ e ∈ w.1, e.evType = EV_REL)
    ∧ PressSpanConcl [([⟨0, EV_REL, REL_X, 3⟩], 100)] 10 200 :=
  ⟨by decide, cursorInputMapper_downTime_once _ 10 200 (by decide)⟩

/-! ### C1: NAVIGATION-mode threshold discretization -/

/-- NAVIGATION-mode parameters (no associated display, not
orientation-aware). -/
def navParams : Parameters := ⟨Mode.navigation, false, false⟩

/-- A raw relative-X motion event carrying delta `d`. -/
def relXEv (d : Int) : RawEvent := ⟨0, EV_REL, REL_X, d⟩

/-- A NAVIGATION-mode mapper at rest except for an X running remainder. -/
def navState (r : Int) : CursorInputMapper :=
  { mkMapper navParams with navRemX := r }

/-- Feed a sequence of single-delta X windows: each window processes one
relative-X event and syncs at its timestamp, concatenating emissions. -/
def navWindowsX : CursorInputMapper → List (Int × Int) →
    CursorInputMapper × List Emitted
  | s, [] => (s, [])
  | s, (d, t) :: rest =>
      let r := (s.process (relXEv d)).sync t
      let restRun := navWindowsX r.1 rest
      (restRun.1, r.2 ++ restRun.2)

def isXKeyDown : Emitted → Bool
  | Emitted.key NavKey.dpadLeft true => true
  | Emitted.key NavKey.dpadRight true => true
  | _ => false

def isRightDown : Emitted → Bool
  | Emitted.key NavKey.dpadRight true => true
  | _ => false

def isLeftDown : Emitted → Bool
  | Emitted.key NavKey.dpadLeft true => true
  | _ => false

/-- Number of X-axis key pairs emitted (each pair contributes exactly one
key-down). -/
def countXKeyDown (es : List Emitted) : Nat := es.countP isXKeyDown

def countRightDown (es : List Emitted) : Nat := es.countP isRightDown

def countLeftDown (es : List Emitted) : Nat := es.countP isLeftDown

/-- Counterexample to C1's unrestricted "k × threshold ⇒ k key pairs"
clause: the X deltas 7 then -7 sum to 0 = 0 × threshold, and the final
remainder is 0, yet the mapper emits 2 key pairs on the X axis (one RIGHT,
then one LEFT), not 0. -/
theorem cursorNav_kThreshold_counterexample :
    ((7 : Int) + (-7) = 0 * TRACKBALL_MOVEMENT_THRESHOLD)
    ∧ (navWindowsX (mkMapper navParams) [(7, 1), (-7, 2)]).1.navRemX = 0
    ∧ countXKeyDown (navWindowsX (mkMapper navParams) [(7, 1), (-7, 2)]).2 = 2 :=
  ⟨by decide, by decide, by decide⟩

lemma countP_keyPairList (p : Emitted → Bool) (k : NavKey) (n : Nat) :
    List.countP p (keyPairList k n)
      = n * ((if p (Emitted.key k true) then 1 else 0)
          + (if p (Emitted.key k false) then 1 else 0)) := by
  induction n with
  | zero => simp [keyPairList]
  | succ n ih =>
      simp only [keyPairList, List.countP_cons, ih]
      by_cases h1 : p (Emitted.key k true) = true <;>
        by_cases h2 : p (Emitted.key k false) = true <;>
          simp [h1, h2] <;> ring

lemma countXKeyDown_buttonTransition (prev curr : Nat) (dt : Option Int) (t : Int) :
    countXKeyDown (buttonTransition prev curr dt t).2 = 0 := by
  unfold buttonTransition countXKeyDown
  split
  · simp [isXKeyDown]
  · split
    · simp [isXKeyDown]
    · simp

lemma countXKeyDown_navX (st : NavStep) :
    countXKeyDown (navAxisEvents true st) = st.pairs := by
  unfold navAxisEvents navKeyFor countXKeyDown
  cases hpos : st.positive <;>
    simp [hpos, countP_keyPairList, isXKeyDown]

lemma countXKeyDown_navY (st : NavStep) :
    countXKeyDown (navAxisEvents false st) = 0 := by
  unfold navAxisEvents navKeyFor countXKeyDown
  cases hpos : st.positive <;>
    simp [hpos, countP_keyPairList, isXKeyDown]

lemma counts_navAxisEvents_pos (st : NavStep) (h : st.positive = true) :
    countRightDown (navAxisEvents true st) = st.pairs
    ∧ countLeftDown (navAxisEvents true st) = 0 := by
  unfold navAxisEvents navKeyFor countRightDown countLeftDown
  rw [h]
  constructor
  · simp [countP_keyPairList, isRightDown]
  · simp [countP_keyPairList, isLeftDown]

lemma counts_navAxisEvents_neg (st : NavStep) (h : st.positive = false) :
    countLeftDown (navAxisEvents true st) = st.pairs
    ∧ countRightDown (navAxisEvents true st) = 0 := by
  unfold navAxisEvents navKeyFor countRightDown countLeftDown
  rw [h]
  constructor
  · simp [countP_keyPairList, isLeftDown]
  · simp [countP_keyPairList, isRightDown]

lemma navAxisStep_pos (r d : Int) (h : 0 ≤ r + d) :
    0 ≤ (navAxisStep r d).newRem ∧ (navAxisStep r d).newRem < 6
    ∧ 6 * ((navAxisStep r d).pairs : Int) + (navAxisStep r d).newRem = r + d
    ∧ (navAxisStep r d).positive = true := by
  unfold navAxisStep
  rw [if_pos h]
  refine ⟨?_, ?_, ?_, rfl⟩
  · show 0 ≤ r + d - (((r + d).natAbs / 6 : Nat) : Int) * 6
    omega
  · show r + d - (((r + d).natAbs / 6 : Nat) : Int) * 6 < 6
    omega
  · show 6 * (((r + d).natAbs / 6 : Nat) : Int)
        + (r + d - (((r + d).natAbs / 6 : Nat) : Int) * 6) = r + d
    omega

lemma navAxisStep_neg (r d : Int) (h : r + d < 0) :
    (navAxisStep r d).newRem ≤ 0 ∧ -6 < (navAxisStep r d).newRem
    ∧ (navAxisStep r d).newRem - 6 * ((navAxisStep r d).pairs : Int) = r + d
    ∧ (navAxisStep r d).positive = false := by
  unfold navAxisStep
  rw [if_neg (by omega)]
  refine ⟨?_, ?_, ?_, rfl⟩
  · show r + d + (((r + d).natAbs / 6 : Nat) : Int) * 6 ≤ 0
    omega
  · show -6 < r + d + (((r + d).natAbs / 6 : Nat) : Int) * 6
    omega
  · show r + d + (((r + d).natAbs / 6 : Nat) : Int) * 6
        - 6 * (((r + d).natAbs / 6 : Nat) : Int) = r + d
    omega

lemma navProcess_eq (r d : Int) :
    (navState r).process (relXEv d)
      = { navState r with mCursorMotionAccumulator := ⟨d, 0⟩ } := by
  simp [navState, mkMapper, CursorInputMapper.process, relXEv, buttonProcess,
    CursorMotionAccumulator.process, posProcess, scrollProcess,
    CursorMotionAccumulator.reset, EV_REL, EV_KEY, EV_ABS, REL_X, REL_Y,
    REL_WHEEL, REL_HWHEEL]

lemma navSync_eq (r d t : Int) :
    ({ navState r with mCursorMotionAccumulator := ⟨d, 0⟩ } : CursorInputMapper).sync t
      = (navState (navAxisStep r d).newRem, navAxisEvents true (navAxisStep r d)) := by
  have hzero : navAxisStep 0 0 = ⟨0, 0, true⟩ := by decide
  simp [CursorInputMapper.sync, navState, mkMapper, buttonTransition,
    CursorMotionAccumulator.getRelativeX, CursorMotionAccumulator.getRelativeY,
    CursorMotionAccumulator.clearRelativeAxes, CursorMotionAccumulator.reset,
    navParams, hzero, navAxisEvents, navKeyFor, keyPairList]

lemma navWindow_eq (r d t : Int) :
    ((navState r).process (relXEv d)).sync t
      = (navState (navAxisStep r d).newRem, navAxisEvents true (navAxisStep r d)) := by
  rw [navProcess_eq]
  exact navSync_eq r d t

/-- Per-window NAVIGATION law (C1 main body): with rotation disabled, a sync
emits exactly `(navAxisStep rem delta).pairs` X-axis key pairs and stores the
step's residue as the new running remainder on each axis. -/
def C1PerWindow : Prop :=
  ∀ (s : CursorInputMapper) (t : Int),
    s.mParameters.mode = Mode.navigation →
    s.mParameters.orientationAware = false →
    countXKeyDown (s.sync t).2
        = (navAxisStep s.navRemX s.mCursorMotionAccumulator.getRelativeX).pairs
    ∧ ((s.sync t).1).navRemX
        = (navAxisStep s.navRemX s.mCursorMotionAccumulator.getRelativeX).newRem
    ∧ ((s.sync t).1).navRemY
        = (navAxisStep s.navRemY s.mCursorMotionAccumulator.getRelativeY).newRem

/-- The arithmetic of one axis step (C1 main body): the pair count is the
floor of the remainder magnitude over the threshold, the consumed multiples
are subtracted, and the carried partial remainder is below the threshold. -/
def C1StepLaw : Prop :=
  ∀ r d : Int,
    (navAxisStep r d).pairs = (r + d).natAbs / TRACKBALL_MOVEMENT_THRESHOLD.toNat
    ∧ (navAxisStep r d).newRem.natAbs < TRACKBALL_MOVEMENT_THRESHOLD.toNat
    ∧ (navAxisStep r d).newRem
        + (if 0 ≤ r + d then ((navAxisStep r d).pairs : Int) * TRACKBALL_MOVEMENT_THRESHOLD
            else -(((navAxisStep r d).pairs : Int) * TRACKBALL_MOVEMENT_THRESHOLD))
        = r + d

/-- The "k × threshold" consequence restricted to nonnegative deltas: k RIGHT
pairs, no LEFT pair, zero remainder carried forward. -/
def C1SameSignPos : Prop :=
  ∀ (ds : List (Int × Int)) (k : Nat),
    (∀ p ∈ ds, 0 ≤ p.1) →
    (ds.map Prod.fst).sum = (k : Int) * TRACKBALL_MOVEMENT_THRESHOLD →
    countRightDown (navWindowsX (mkMapper navParams) ds).2 = k
    ∧ countLeftDown (navWindowsX (mkMapper navParams) ds).2 = 0
    ∧ (navWindowsX (mkMapper navParams) ds).1.navRemX = 0

/-- The "k × threshold" consequence restricted to nonpositive deltas: k LEFT
pairs, no RIGHT pair, zero remainder carried forward. -/
def C1SameSignNeg : Prop :=
  ∀ (ds : List (Int × Int)) (k : Nat),
    (∀ p ∈ ds, p.1 ≤ 0) →
    (ds.map Prod.fst).sum = -((k : Int) * TRACKBALL_MOVEMENT_THRESHOLD) →
    countLeftDown (navWindowsX (mkMapper navParams) ds).2 = k
    ∧ countRightDown (navWindowsX (mkMapper navParams) ds).2 = 0
    ∧ (navWindowsX (mkMapper navParams) ds).1.navRemX = 0

lemma countXKeyDown_append (a b : List Emitted) :
    countXKeyDown (a ++ b) = countXKeyDown a + countXKeyDown b :=
  List.countP_append isXKeyDown a b

lemma navWindowsX_cons (r d t : Int) (ds : List (Int × Int)) :
    navWindowsX (navState r) ((d, t) :: ds)
      = ((navWindowsX (navState (navAxisStep r d).newRem) ds).1,
         navAxisEvents true (navAxisStep r d)
           ++ (navWindowsX (navState (navAxisStep r d).newRem) ds).2) := by
  show ((navWindowsX (((navState r).process (relXEv d)).sync t).1 ds).1,
        (((navState r).process (relXEv d)).sync t).2
          ++ (navWindowsX (((navState r).process (relXEv d)).sync t).1 ds).2) = _
  rw [navWindow_eq]

lemma navRunX_pos_invariant :
    ∀ (ds : List (Int × Int)) (r : Int),
      (∀ p ∈ ds, 0 ≤ p.1) → 0 ≤ r → r < 6 →
      0 ≤ (navWindowsX (navState r) ds).1.navRemX
      ∧ (navWindowsX (navState r) ds).1.navRemX < 6
      ∧ 6 * (countRightDown (navWindowsX (navState r) ds).2 : Int)
          + (navWindowsX (navState r) ds).1.navRemX
          = r + (ds.map Prod.fst).sum
      ∧ countLeftDown (navWindowsX (navState r) ds).2 = 0 := by
  intro ds
  induction ds with
  | nil =>
      intro r hall hr0 hr6
      refine ⟨hr0, hr6, ?_, rfl⟩
      simp [navWindowsX, navState, countRightDown]
  | cons p ds ih =>
      obtain ⟨d, t⟩ := p
      intro r hall hr0 hr6
      have hd : 0 ≤ d := hall (d, t) (List.mem_cons_self _ _)
      have hrest : ∀ q ∈ ds, 0 ≤ q.1 := fun q hq => hall q (List.mem_cons_of_mem _ hq)
      have hsum : 0 ≤ r + d := by omega
      obtain ⟨a1, a2, a3, a4⟩ := navAxisStep_pos r d hsum
      obtain ⟨c1, c2⟩ := counts_navAxisEvents_pos (navAxisStep r d) a4
      obtain ⟨i1, i2, i3, i4⟩ := ih (navAxisStep r d).newRem hrest a1 a2
      rw [navWindowsX_cons r d t ds]
      refine ⟨i1, i2, ?_, ?_⟩
      · simp only [countRightDown, List.countP_append, List.map_cons, List.sum_cons]
        simp only [countRightDown] at c1 i3
        push_cast
        omega
      · simp only [countLeftDown, List.countP_append]
        simp only [countLeftDown] at c2 i4
        omega

lemma navRunX_neg_invariant :
    ∀ (ds : List (Int × Int)) (r : Int),
      (∀ p ∈ ds, p.1 ≤ 0) → r ≤ 0 → -6 < r →
      (navWindowsX (navState r) ds).1.navRemX ≤ 0
      ∧ -6 < (navWindowsX (navState r) ds).1.navRemX
      ∧ (navWindowsX (navState r) ds).1.navRemX
          - 6 * (countLeftDown (navWindowsX (navState r) ds).2 : Int)
          = r + (ds.map Prod.fst).sum
      ∧ countRightDown (navWindowsX (navState r) ds).2 = 0 := by
  intro ds
  induction ds with
  | nil =>
      intro r hall hr0 hr6
      refine ⟨hr0, hr6, ?_, rfl⟩
      simp [navWindowsX, navState, countLeftDown]
  | cons p ds ih =>
      obtain ⟨d, t⟩ := p
      intro r hall hr0 hr6
      have hd : d ≤ 0 := hall (d, t) (List.mem_cons_self _ _)
      have hrest : ∀ q ∈ ds, q.1 ≤ 0 := fun q hq => hall q (List.mem_cons_of_mem _ hq)
      rw [navWindowsX_cons r d t ds]
      by_cases hz : r + d < 0
      · obtain ⟨b1, b2, b3, b4⟩ := navAxisStep_neg r d hz
        obtain ⟨c1, c2⟩ := counts_navAxisEvents_neg (navAxisStep r d) b4
        obtain ⟨i1, i2, i3, i4⟩ := ih (navAxisStep r d).newRem hrest b1 b2
        refine ⟨i1, i2, ?_, ?_⟩
        · simp only [countLeftDown, List.countP_append, List.map_cons, List.sum_cons]
          simp only [countLeftDown] at c1 i3
          push_cast
          omega
        · simp only [countRightDown, List.countP_append]
          simp only [countRightDown] at c2 i4
          omega
      · have hz0 : 0 ≤ r + d := by omega
        obtain ⟨a1, a2, a3, a4⟩ := navAxisStep_pos r d hz0
        obtain ⟨c1, c2⟩ := counts_navAxisEvents_pos (navAxisStep r d) a4
        have hpz : (navAxisStep r d).pairs = 0 := by omega
        have hnz : (navAxisStep r d).newRem = 0 := by omega
        obtain ⟨i1, i2, i3, i4⟩ := ih (navAxisStep r d).newRem hrest (by omega) (by omega)
        refine ⟨i1, i2, ?_, ?_⟩
        · simp only [countLeftDown, List.countP_append, List.map_cons, List.sum_cons]
          simp only [countLeftDown] at c2 i3
          push_cast
          omega
        · simp only [countRightDown, List.countP_append]
          simp only [countRightDown] at c1 i4
          omega

/-- C1 (amended): per sync window the NAVIGATION mapper emits exactly
floor(|remainder + delta| / threshold) paired key events on the axis,
directed by the sign, subtracts the consumed multiples and carries the
partial remainder (always below the threshold); the "k × threshold ⇒ k
pairs with zero remainder" consequence holds for same-sign delta sequences
(nonnegative ⇒ k RIGHT pairs, nonpositive ⇒ k LEFT pairs) — the
counterexample shows mixed signs break the unrestricted clause. -/
theorem cursorNav_threshold_discretization :
    C1PerWindow ∧ C1StepLaw ∧ C1SameSignPos ∧ C1SameSignNeg := by
  refine ⟨?_, ?_, ?_, ?_⟩
  · intro s t hmode horient
    simp [CursorInputMapper.sync, hmode, horient, countXKeyDown_append,
      countXKeyDown_buttonTransition, countXKeyDown_navX, countXKeyDown_navY]
  · intro r d
    by_cases h : 0 ≤ r + d
    · refine ⟨?_, ?_, ?_⟩
      · unfold navAxisStep
        rw [if_pos h]
      · unfold navAxisStep
        rw [if_pos h]
        show (r + d - (((r + d).natAbs / 6 : Nat) : Int) * 6).natAbs < 6
        omega
      · rw [if_pos h]
        obtain ⟨a1, a2, a3, -⟩ := navAxisStep_pos r d h
        show (navAxisStep r d).newRem
            + ((navAxisStep r d).pairs : Int) * TRACKBALL_MOVEMENT_THRESHOLD = r + d
        have h6 : TRACKBALL_MOVEMENT_THRESHOLD = 6 := rfl
        rw [h6]
        omega
    · have hneg : r + d < 0 := by omega
      refine ⟨?_, ?_, ?_⟩
      · unfold navAxisStep
        rw [if_neg h]
      · unfold navAxisStep
        rw [if_neg h]
        show (r + d + (((r + d).natAbs / 6 : Nat) : Int) * 6).natAbs < 6
        omega
      · rw [if_neg h]
        obtain ⟨b1, b2, b3, -⟩ := navAxisStep_neg r d hneg
        show (navAxisStep r d).newRem
            + -(((navAxisStep r d).pairs : Int) * TRACKBALL_MOVEMENT_THRESHOLD) = r + d
        have h6 : TRACKBALL_MOVEMENT_THRESHOLD = 6 := rfl
        rw [h6]
        omega
  · intro ds k hall hsum
    have h0 : mkMapper navParams = navState 0 := rfl
    rw [h0]
    obtain ⟨i1, i2, i3, i4⟩ := navRunX_pos_invariant ds 0 hall (by omega) (by omega)
    have h6 : (k : Int) * TRACKBALL_MOVEMENT_THRESHOLD = (k : Int) * 6 := rfl
    rw [h6] at hsum
    refine ⟨?_, i4, ?_⟩ <;> omega
  · intro ds k hall hsum
    have h0 : mkMapper navParams = navState 0 := rfl
    rw [h0]
    obtain ⟨i1, i2, i3, i4⟩ := navRunX_neg_invariant ds 0 hall (by omega) (by omega)
    have h6 : -((k : Int) * TRACKBALL_MOVEMENT_THRESHOLD) = -((k : Int) * 6) := rfl
    rw [h6] at hsum
    refine ⟨?_, i4, ?_⟩ <;> omega

/-- Witness for C1 (amended): three windows of +2 on X (sum 6 = 1 ×
threshold) yield exactly one RIGHT pair, no LEFT pair, zero remainder. -/
theorem cursorNav_threshold_discretization_witness :
    (∀ p ∈ ([(2, 1), (2, 2), (2, 3)] : List (Int × Int)), 0 ≤ p.1)
    ∧ countRightDown (navWindowsX (mkMapper navParams) [(2, 1), (2, 2), (2, 3)]).2 = 1
    ∧ countLeftDown (navWindowsX (mkMapper navParams) [(2, 1), (2, 2), (2, 3)]).2 = 0
    ∧ (navWindowsX (mkMapper navParams) [(2, 1), (2, 2), (2, 3)]).1.navRemX = 0 :=
  ⟨by decide,
   cursorNav_threshold_discretization.2.2.1 [(2, 1), (2, 2), (2, 3)] 1
     (by decide) (by decide)⟩

end Spec2Proof
